import Mathlib

/-!
Verification of the talkinghead live-mode animation engine
(`talkinghead/tha3/app/app.py`): the procedural pose-animation drivers
(emotion overlay, sway, interpolation, blinking, talking, breathing),
the emotion-selection control surface (`setEmotion`), and the
producer/encoder/sender frame pipeline with its flow-control protocol.

Poses are embedded as lists of exact rationals (the Python code uses
floats; every claim here is about the algebraic structure of the
computations, so exact arithmetic is the faithful reading).  Calls to
the random number generator are embedded as explicit inputs, with the
support of each uniform draw expressed as a hypothesis where a claim
depends on it.  Wall-clock timestamps (`time.time_ns()`) are integers
of nanoseconds.
-/

namespace Talkinghead

/-- A pose vector: one rational per morph channel, in the fixed channel
order of the static name-to-index table. -/
abbrev Pose := List ℚ

/-- Modelled from the spec: the static morph-channel table
(`posedict_keys` in `tha3.app.util`, which is outside the provided
source).  The spec fixes only that it is a static ordered table of
named channels; this model lists the channels the animation drivers
reference by name. -/
def posedict_keys : List String :=
  ["eye_wink_left_index", "eye_wink_right_index", "mouth_aaa_index",
   "head_x_index", "head_y_index", "neck_z_index",
   "body_y_index", "body_z_index", "breathing_index"]

/-- Modelled from the spec: `posedict_key_to_index` of `tha3.app.util`,
the name-to-index mapping induced by the static channel table
(parameterized here over the table so that the driver theorems hold for
any such table). -/
def posedict_key_to_index (keys : List String) (key : String) : ℕ :=
  keys.indexOf key

/-- Modelled from the spec: `posedict_to_pose` of `tha3.app.util` builds
a full pose vector from a partial name-to-value mapping; channels absent
from the mapping default to the neutral value 0. -/
def posedict_to_pose (keys : List String) (posedict : List (String × ℚ)) : Pose :=
  keys.map (fun key => (List.lookup key posedict).getD 0)

/-- Index-aware map over a list, used to embed the Python pattern
`for idx, key in enumerate(posedict_keys): new_pose[idx] = ...`. -/
def mapWithIdx (f : ℕ → ℚ → ℚ) : ℕ → List ℚ → List ℚ
  | _, [] => []
  | n, x :: xs => f n x :: mapWithIdx f (n + 1) xs

theorem mapWithIdx_length (f : ℕ → ℚ → ℚ) (n : ℕ) (l : List ℚ) :
    (mapWithIdx f n l).length = l.length := by
  induction l generalizing n with
  | nil => rfl
  | cons x xs ih => simp [mapWithIdx, ih]

theorem mapWithIdx_getD (f : ℕ → ℚ → ℚ) (n i : ℕ) (l : List ℚ) (h : i < l.length) :
    (mapWithIdx f n l).getD i 0 = f (n + i) (l.getD i 0) := by
  induction l generalizing n i with
  | nil => simp at h
  | cons x xs ih =>
    cases i with
    | zero => simp [mapWithIdx]
    | succ j =>
      simp only [List.length_cons, Nat.succ_lt_succ_iff] at h
      simp only [mapWithIdx, List.getD_cons_succ]
      rw [ih (n + 1) j h]
      ring_nf

theorem getD_set_self (l : List ℚ) (i : ℕ) (v : ℚ) (h : i < l.length) :
    (l.set i v).getD i 0 = v := by
  induction l generalizing i with
  | nil => simp at h
  | cons x xs ih =>
    cases i with
    | zero => simp
    | succ j =>
      simp only [List.length_cons, Nat.succ_lt_succ_iff] at h
      simpa using ih j h

theorem getD_set_ne (l : List ℚ) (i j : ℕ) (v : ℚ) (h : i ≠ j) :
    (l.set i v).getD j 0 = l.getD j 0 := by
  induction l generalizing i j with
  | nil => simp
  | cons x xs ih =>
    cases i with
    | zero =>
      cases j with
      | zero => exact absurd rfl h
      | succ k => simp
    | succ i2 =>
      cases j with
      | zero => simp
      | succ k =>
        simp only [List.set_cons_succ, List.getD_cons_succ]
        exact ih i2 k (fun hh => h (by rw [hh]))

/-! ## Animation drivers (`class Animator`) -/

/-- Embeds `Animator.apply_emotion_to_pose`: copy every morph present in
`emotion_posedict` to the pose, except `breathing_index`; all other
channels keep their value from the input pose.  The Python code copies
the input list first and never mutates it. -/
def apply_emotion_to_pose (keys : List String) (emotion_posedict : List (String × ℚ))
    (pose : Pose) : Pose :=
  mapWithIdx (fun idx x =>
    match keys[idx]? with
    | some key =>
      match List.lookup key emotion_posedict with
      | some v => if key = "breathing_index" then x else v
      | none => x
    | none => x) 0 pose

/-- Embeds `Animator.animate_talking`: when the talking flag is set, replace the
`mouth_aaa_index` channel with `clamp(abs(1 - x) + u, 0, 1)` where `u`
is the per-tick uniform draw from `[-2, 2]`; otherwise return the pose
unchanged. -/
def animate_talking (keys : List String) (talking : Bool) (u : ℚ) (pose : Pose) : Pose :=
  if !talking then pose
  else
    let idx := posedict_key_to_index keys "mouth_aaa_index"
    let x := pose.getD idx 0
    pose.set idx (max 0 (min (|1 - x| + u) 1))

/-- The sway magnitude bound `random_max = 0.6` of
`Animator.compute_sway_target_pose`. -/
def sway_random_max : ℚ := 0.6

/-- The per-tick jitter bound `noise_max = 0.02` of
`Animator.compute_sway_target_pose`. -/
def sway_noise_max : ℚ := 0.02

/-- The channels affected by the sway driver (`SWAYPARTS`). -/
def SWAYPARTS : List String :=
  ["head_x_index", "head_y_index", "neck_z_index", "body_y_index", "body_z_index"]

/-- Upper bound of the sway draw:
`random_upper = max(0, random_max - target_value)`. -/
def sway_random_upper (target_value : ℚ) : ℚ := max 0 (sway_random_max - target_value)

/-- Lower bound of the sway draw:
`random_lower = min(0, -random_max - target_value)`. -/
def sway_random_lower (target_value : ℚ) : ℚ := min 0 (-sway_random_max - target_value)

/-- The mutable animation state of `class Animator`
(`reset_animation_state` fields plus the output slot shared with the
encoder).  Timestamps are nanoseconds; the rendered output image is
abstracted (the claims never inspect pixel data). -/
structure AnimatorState where
  current_pose : Option Pose
  last_emotion : Option String
  last_emotion_change_timestamp : ℤ
  last_blink_timestamp : ℤ
  blink_interval : Option ℚ
  last_sway_target_timestamp : ℤ
  last_sway_target_pose : Option Pose
  sway_interval : Option ℚ
  breathing_epoch : ℤ
  source_image : Option Pose
  result_image : Option Pose
  new_frame_available : Bool
deriving DecidableEq

/-- The inner `macrosway()` function of
`Animator.compute_sway_target_pose`: recompute the randomized sway
target only when the active emotion changed since the last
recomputation or the randomized hold interval has elapsed; otherwise
return the cached swayed pose unchanged.  `draws key` is the uniform
draw `random.uniform(random_lower, random_upper)` for that channel, and
`interval_draw` is the uniform draw from `[5, 10]` for the next hold
interval. -/
def sway_step (keys : List String) (current_emotion : String) (time_now : ℤ)
    (draws : String → ℚ) (interval_draw : ℚ) (original_target_pose : Pose)
    (st : AnimatorState) : Pose × AnimatorState :=
  let should_pick_new_sway_target : Bool :=
    if some current_emotion = st.last_emotion then
      match st.sway_interval with
      | some iv =>
        if ((time_now - st.last_sway_target_timestamp : ℤ) : ℚ) / 10 ^ 9 < iv then false
        else true
      | none => true
    else true
  if should_pick_new_sway_target then
    let new_target_pose := SWAYPARTS.foldl (fun p key =>
      let idx := posedict_key_to_index keys key
      let target_value := original_target_pose.getD idx 0
      p.set idx (target_value + draws key)) original_target_pose
    (new_target_pose,
     { st with last_sway_target_pose := some new_target_pose,
               last_sway_target_timestamp := time_now,
               sway_interval := some interval_draw })
  else
    match st.last_sway_target_pose with
    | some cached => (cached, st)
    | none => (original_target_pose, st)

/-- The inner `add_microsway()` function of
`Animator.compute_sway_target_pose`: add a fresh uniform draw from
`[-noise_max, noise_max]` to each sway channel and clamp to `[-1, 1]`
(re-generated every frame, never cached). -/
def add_microsway (keys : List String) (micro : String → ℚ) (p : Pose) : Pose :=
  SWAYPARTS.foldl (fun q key =>
    let idx := posedict_key_to_index keys key
    let x := q.getD idx 0 + micro key
    q.set idx (max (-1) (min x 1))) p

/-- Embeds `Animator.compute_sway_target_pose`: the macro sway target with
the per-tick micro jitter applied on top.  Faithful to the in-place
mutation in the source: `add_microsway` (marked DANGER: MUTATING
FUNCTION) mutates the list returned by `macrosway`, and in both the
cached branch and the recompute branch that list is the very object
stored in `last_sway_target_pose`, so the micro jitter writes through
the alias into the cached macro target.  Only the defensive fallback
branch (no cached pose) returns a non-aliased list, which is exactly
the case `last_sway_target_pose ≠ some r.1` below. -/
def compute_sway_target_pose (keys : List String) (current_emotion : String)
    (time_now : ℤ) (draws : String → ℚ) (interval_draw : ℚ) (micro : String → ℚ)
    (original_target_pose : Pose) (st : AnimatorState) : Pose × AnimatorState :=
  let r := sway_step keys current_emotion time_now draws interval_draw
    original_target_pose st
  let jittered := add_microsway keys micro r.1
  let st2 :=
    if r.2.last_sway_target_pose = some r.1 then
      { r.2 with last_sway_target_pose := some jittered }
    else r.2
  (jittered, st2)

/-- The constant `breathing_cycle_duration = 4.0` in seconds. -/
def breathing_cycle_duration : ℚ := 4

/-- The breathing cycle position: seconds since the breathing epoch
divided by the cycle duration (`cycle_pos` before taking the fractional
part). -/
def breathing_cycle_pos (epoch time_now : ℤ) : ℚ :=
  (((time_now - epoch : ℤ) : ℚ) / 10 ^ 9) / breathing_cycle_duration

/-- Python `int()`: truncation toward zero. -/
def pyTrunc (q : ℚ) : ℤ := if 0 ≤ q then ⌊q⌋ else -⌊-q⌋

/-- The breathing phase: the fractional part of the cycle position,
`cycle_pos - float(int(cycle_pos))`. -/
def breathing_phase (epoch time_now : ℤ) : ℚ :=
  breathing_cycle_pos epoch time_now - (pyTrunc (breathing_cycle_pos epoch time_now) : ℚ)

/-- The epoch update of `Animator.animate_breathing`: when the cycle
position exceeds 1.0 the epoch is reset to now (to prevent loss of
floating-point accuracy in long sessions); otherwise it is kept. -/
def animate_breathing_epoch (epoch time_now : ℤ) : ℤ :=
  if 1 < breathing_cycle_pos epoch time_now then time_now else epoch

/-- Embeds `Animator.animate_breathing`: set the `breathing_index` channel to
`envelope(phase)` and update the breathing epoch.  In the source the
envelope is `sin(cycle_pos * pi) ** 2`; it is transcendental, so it is
taken as a function parameter here and the claim theorem instantiates
it with `Real.sin`-squared. -/
def animate_breathing (keys : List String) (envelope : ℚ → ℚ) (epoch time_now : ℤ)
    (pose : Pose) : Pose × ℤ :=
  (pose.set (posedict_key_to_index keys "breathing_index")
    (envelope (breathing_phase epoch time_now)),
   animate_breathing_epoch epoch time_now)

/-- Embeds `Animator.animate_blinking`: Bernoulli blink trial (`roll <= 0.03`),
suppressed during the randomized refractory interval unless the
"confusion" emotion was entered within the last 10 seconds; an accepted
blink forces both eye-wink channels to 1 and re-arms the refractory
interval with a fresh uniform draw from `[2, 5]`. -/
def animate_blinking (keys : List String) (current_emotion : String) (time_now : ℤ)
    (roll interval_draw : ℚ) (pose : Pose) (st : AnimatorState) :
    Pose × AnimatorState :=
  let should_blink : Bool :=
    if roll ≤ 3 / 100 then
      match st.blink_interval with
      | none => true
      | some biv =>
        if current_emotion = "confusion" ∧
            ((time_now - st.last_emotion_change_timestamp : ℤ) : ℚ) / 10 ^ 9 < 10 then
          true
        else if ((time_now - st.last_blink_timestamp : ℤ) : ℚ) / 10 ^ 9 < biv then false
        else true
    else false
  if should_blink then
    let p := (pose.set (posedict_key_to_index keys "eye_wink_left_index") 1).set
      (posedict_key_to_index keys "eye_wink_right_index") 1
    (p, { st with last_blink_timestamp := time_now, blink_interval := some interval_draw })
  else (pose, st)

/-- Embeds `Animator.interpolate_pose`: advance each channel a fraction `step`
of the way from `pose` toward `target_pose`:
`new_pose[idx] = pose[idx] + step * (target_pose[idx] - pose[idx])`,
for every index of the static channel table. -/
def interpolate_pose (keys : List String) (pose target_pose : Pose) (step : ℚ) : Pose :=
  mapWithIdx (fun idx x =>
    if idx < keys.length then x + step * (target_pose.getD idx 0 - x) else x) 0 pose

/-- The per-tick random draws consumed by one call to
`Animator.render_animation_frame`. -/
structure TickDraws where
  sway : String → ℚ
  sway_interval_draw : ℚ
  micro : String → ℚ
  blink_roll : ℚ
  blink_interval_draw : ℚ
  talk : ℚ

/-- Embeds `Animator.render_animation_frame`: one render tick.

Skips entirely when animation is paused or when the previously
published frame has not been consumed yet (`new_frame_available`);
otherwise handles a pending image reload, runs the pose drivers in
source order (emotion overlay, sway, integration, blinking, talking,
breathing), renders via the external poser (abstracted as the function
parameter `render`), and publishes the result by setting `result_image`
and marking `new_frame_available`.

`reload_pending`/`loaded_image` model `global_reload_image` and the
source image resulting from `load_image` (file I/O is external);
`envelope` is the transcendental breathing envelope (see
`animate_breathing`). -/
def render_animation_frame (keys : List String) (render : Pose → Pose → Pose)
    (envelope : ℚ → ℚ) (animation_running : Bool) (current_emotion : String)
    (is_talking : Bool) (reload_pending : Bool) (loaded_image : Option Pose)
    (emotions : List (String × List (String × ℚ))) (time_now : ℤ) (d : TickDraws)
    (st : AnimatorState) : AnimatorState :=
  if !animation_running then st
  else if st.new_frame_available then st
  else
    let st1 := if reload_pending then { st with source_image := loaded_image } else st
    match st1.source_image with
    | none => st1
    | some src =>
      let emotion_posedict := (emotions.lookup current_emotion).getD []
      let pose0 := st1.current_pose.getD (posedict_to_pose keys emotion_posedict)
      let st2 :=
        if some current_emotion ≠ st1.last_emotion then
          { st1 with last_emotion_change_timestamp := time_now }
        else st1
      let target1 := apply_emotion_to_pose keys emotion_posedict pose0
      let rsway := compute_sway_target_pose keys current_emotion time_now d.sway
        d.sway_interval_draw d.micro target1 st2
      let p1 := interpolate_pose keys pose0 rsway.1 (1 / 10)
      let rblink := animate_blinking keys current_emotion time_now d.blink_roll
        d.blink_interval_draw p1 rsway.2
      let p2 := animate_talking keys is_talking d.talk rblink.1
      let rbreath := animate_breathing keys envelope rblink.2.breathing_epoch time_now p2
      { rblink.2 with
          current_pose := some rbreath.1,
          breathing_epoch := rbreath.2,
          last_emotion := some current_emotion,
          result_image := some (render src rbreath.1),
          new_frame_available := true }

/-! ## Emotion selection (`setEmotion`) -/

/-- One step of the highest-score scan in `setEmotion`:
`if item["score"] > highest_score: update`.  The initial accumulator
`none` plays the role of `highest_score = -inf`, which every real score
strictly exceeds. -/
def selectStep (acc : Option (String × ℚ)) (item : String × ℚ) : Option (String × ℚ) :=
  match acc with
  | none => some item
  | some best => if best.2 < item.2 then some item else some best

/-- The highest-confidence (label, score) pair chosen by the scan loop
of `setEmotion`; `none` when the input list is empty (the Python
sentinel `highest_label = None`). -/
def selectHighest (items : List (String × ℚ)) : Option (String × ℚ) :=
  items.foldl selectStep none

/-- Embeds `setEmotion`: pick the highest-confidence label; if it is not among
the loaded emotion presets (which is also the case for the `None`
sentinel of an empty input), log a warning and fall back to "neutral".
Returns the new `current_emotion` together with a flag recording
whether the warning was emitted. -/
def setEmotion (emotions : List String) (items : List (String × ℚ)) : String × Bool :=
  match selectHighest items with
  | some best => if best.1 ∈ emotions then (best.1, false) else ("neutral", true)
  | none => ("neutral", true)

/-! ## The producer/encoder/sender frame pipeline

Raw and encoded frames are identified by generation ids (the reading the spec gives to the `id(image_bytes)`
identity check of the source; the source
stores the Python object id of the latest sent encoded frame in
`global_latest_frame_sent`). -/

/-- Shared state of the frame pipeline: the single output slot of the animator
slot (`result_image` + `new_frame_available`), the frame the encoder
has taken and is encoding, the published encoded frame
(`Encoder.image_bytes`), the delivery mark
(`global_latest_frame_sent`), and the shutdown flag. -/
structure PipeState where
  new_frame_available : Bool
  raw_frame : Option ℕ
  next_gen : ℕ
  taken : Option ℕ
  encoded : Option ℕ
  latest_sent : Option ℕ
  terminated : Bool
deriving DecidableEq

/-- The postcondition of the delivery-sync wait loop of the encoder
(`while global_latest_frame_sent != id(previous_frame) and not
self._terminated: time.sleep(0.001)`): on exit, either there was no
previously published encoded frame, or the delivery mark equals the
previous frame, or shutdown was signalled. -/
def encoder_may_publish (s : PipeState) : Prop :=
  match s.encoded with
  | none => True
  | some p => s.latest_sent = some p ∨ s.terminated = true

/-- Interleaved steps of the render / encode / send loops:

* `producer_publish`: `render_animation_frame` publishes a new raw
  frame only when the previous one has been consumed (the
  `new_frame_available` early-out);
* `encoder_take`: under the shared lock, the encoder takes the raw
  frame and clears the flag;
* `encoder_publish`: the encoder replaces `image_bytes` only after its
  delivery-sync wait loop exits (`encoder_may_publish`);
* `sender_send`: the network generator sends the current encoded frame
  and updates the delivery mark;
* `shutdown`: a termination flag is raised. -/
inductive PipeStep : PipeState → PipeState → Prop where
  | producer_publish (s : PipeState) (h : s.new_frame_available = false) :
      PipeStep s { s with raw_frame := some s.next_gen,
                          next_gen := s.next_gen + 1,
                          new_frame_available := true }
  | encoder_take (s : PipeState) (g : ℕ) (h1 : s.new_frame_available = true)
      (h2 : s.raw_frame = some g) :
      PipeStep s { s with new_frame_available := false, taken := some g }
  | encoder_publish (s : PipeState) (g : ℕ) (h1 : s.taken = some g)
      (h2 : encoder_may_publish s) :
      PipeStep s { s with encoded := some g, taken := none }
  | sender_send (s : PipeState) (g : ℕ) (h : s.encoded = some g) :
      PipeStep s { s with latest_sent := some g }
  | shutdown (s : PipeState) : PipeStep s { s with terminated := true }

/-! ## Claim theorems -/

/-- Helper: within the sway hold interval — same active emotion as at
the last recomputation, a hold interval has been drawn, and less of it
has elapsed than its length — the recompute branch of `macrosway` is
not taken: it returns the cached pose and changes no state.  Note this
covers `macrosway` in isolation only; the enclosing
`compute_sway_target_pose` then applies the micro jitter in place,
which writes through the alias into the cache. -/
theorem sway_step_cached (keys : List String) (current_emotion : String)
    (time_now : ℤ) (draws : String → ℚ) (interval_draw : ℚ)
    (original_target_pose : Pose) (st : AnimatorState) (iv : ℚ) (cached : Pose)
    (h1 : st.last_emotion = some current_emotion)
    (h2 : st.sway_interval = some iv)
    (h3 : ((time_now - st.last_sway_target_timestamp : ℤ) : ℚ) / 10 ^ 9 < iv)
    (h4 : st.last_sway_target_pose = some cached) :
    sway_step keys current_emotion time_now draws interval_draw
      original_target_pose st = (cached, st) := by
  simp only [sway_step, h1, h2, h4, if_pos h3, if_true]
  simp

/-- A concrete animator state with a previously drawn sway target,
used to build concrete states for witnesses. -/
def sway_cached_state : AnimatorState :=
  { current_pose := none, last_emotion := some "neutral",
    last_emotion_change_timestamp := 0, last_blink_timestamp := 0,
    blink_interval := none, last_sway_target_timestamp := 0,
    last_sway_target_pose := some [1, 2], sway_interval := some 7,
    breathing_epoch := 0, source_image := none, result_image := none,
    new_frame_available := false }

/-- C10: for the empty list of (label, score) pairs, the scan yields
the no-candidate sentinel (`none`, the Python `highest_label = None`),
which is not a known preset, so `setEmotion` terminates normally with
the "neutral" fallback and a warning. -/
theorem setEmotion_empty (emotions : List String) :
    selectHighest [] = none ∧ setEmotion emotions [] = ("neutral", true) :=
  ⟨rfl, rfl⟩

theorem selectStep_le (acc : Option (String × ℚ)) (x : String × ℚ) :
    ∃ b, selectStep acc x = some b ∧ x.2 ≤ b.2 ∧
      ∀ b0, acc = some b0 → b0.2 ≤ b.2 := by
  match acc with
  | none => exact ⟨x, rfl, le_refl _, fun b0 h => by cases h⟩
  | some best =>
    by_cases h : best.2 < x.2
    · exact ⟨x, by simp [selectStep, h], le_refl _,
        fun b0 hb => by cases hb; exact le_of_lt h⟩
    · exact ⟨best, by simp [selectStep, h], le_of_not_lt h,
        fun b0 hb => by cases hb; exact le_refl _⟩

theorem foldl_selectStep_le (items : List (String × ℚ)) :
    ∀ acc best, items.foldl selectStep acc = some best →
      (∀ p ∈ items, p.2 ≤ best.2) ∧ ∀ b0, acc = some b0 → b0.2 ≤ best.2 := by
  induction items with
  | nil =>
    intro acc best h
    simp only [List.foldl_nil] at h
    exact ⟨by simp, fun b0 hb => by rw [hb] at h; cases h; exact le_refl _⟩
  | cons x xs ih =>
    intro acc best h
    simp only [List.foldl_cons] at h
    obtain ⟨b, hb, hxb, hacc⟩ := selectStep_le acc x
    obtain ⟨hxs, hcarry⟩ := ih (selectStep acc x) best h
    refine ⟨?_, fun b0 h0 => le_trans (hacc b0 h0) (hcarry b hb)⟩
    intro p hp
    rcases List.mem_cons.mp hp with hpx | hpxs
    · rw [hpx]; exact le_trans hxb (hcarry b hb)
    · exact hxs p hpxs

/-- C9: the scan of `setEmotion` selects a pair whose score is maximal
among the input; if the selected label is not among the loaded emotion
presets the fallback "neutral" is applied with a warning and no
exception reaches the caller (the embedded function is total), and if
it is known it becomes the active emotion. -/
theorem setEmotion_spec (emotions : List String) (items : List (String × ℚ))
    (lbl : String) (sc : ℚ) (hsel : selectHighest items = some (lbl, sc)) :
    (∀ p ∈ items, p.2 ≤ sc) ∧
    (lbl ∉ emotions → setEmotion emotions items = ("neutral", true)) ∧
    (lbl ∈ emotions → setEmotion emotions items = (lbl, false)) := by
  refine ⟨(foldl_selectStep_le items none (lbl, sc) hsel).1, ?_, ?_⟩
  · intro hmem
    simp [setEmotion, hsel, hmem]
  · intro hmem
    simp [setEmotion, hsel, hmem]

/-- Witness for C9: the unknown top-scoring label "joyyy" falls back to
"neutral" with a warning. -/
theorem setEmotion_spec_witness :
    selectHighest [("joyyy", (9 : ℚ)), ("sadness", 1)] = some ("joyyy", 9) ∧
    setEmotion ["neutral", "joy"] [("joyyy", (9 : ℚ)), ("sadness", 1)] =
      ("neutral", true) :=
  ⟨by decide,
   (setEmotion_spec ["neutral", "joy"] [("joyyy", (9 : ℚ)), ("sadness", 1)]
     "joyyy" 9 (by decide)).2.1 (by decide)⟩

/-- C3: in any step of the pipeline, the encoder never replaces a
published encoded frame with a different one unless the delivery mark
already equals that frame (it has been sent at least once) or shutdown
has been signalled — the exit condition of the delivery-sync wait loop. -/
theorem encoder_no_overwrite (s s2 : PipeState) (p g : ℕ)
    (hstep : PipeStep s s2) (hprev : s.encoded = some p)
    (hnew : s2.encoded = some g) (hne : g ≠ p) :
    s.latest_sent = some p ∨ s.terminated = true := by
  cases hstep with
  | producer_publish h => simp_all
  | encoder_take g2 h1 h2 => simp_all
  | encoder_publish g2 h1 h2 =>
    unfold encoder_may_publish at h2
    rw [hprev] at h2
    exact h2
  | sender_send g2 h => simp_all
  | shutdown => simp_all

/-- Concrete pre-state for the C3 witness: frame 1 is published and
already delivered, frame 2 is encoded and pending publication. -/
def pipe_pre_state : PipeState :=
  { new_frame_available := false, raw_frame := none, next_gen := 3,
    taken := some 2, encoded := some 1, latest_sent := some 1,
    terminated := false }

/-- Witness for C3: publishing frame 2 over the already-delivered
frame 1 is a legal step, and the theorem yields that frame 1 had been
sent. -/
theorem encoder_no_overwrite_witness :
    PipeStep pipe_pre_state
      { pipe_pre_state with encoded := some 2, taken := none } ∧
    (pipe_pre_state.latest_sent = some 1 ∨ pipe_pre_state.terminated = true) :=
  have hstep : PipeStep pipe_pre_state
      { pipe_pre_state with encoded := some 2, taken := none } :=
    PipeStep.encoder_publish pipe_pre_state 2 rfl (Or.inl rfl)
  ⟨hstep, encoder_no_overwrite pipe_pre_state _ 1 2 hstep rfl rfl (by decide)⟩

/-- C4: a render tick that starts with the previously published frame
still unconsumed (`new_frame_available` set) does nothing: it renders
nothing and leaves the whole animator state — in particular
`result_image` and `new_frame_available` — unchanged, so the single
output slot never holds more than one unconsumed raw frame. -/
theorem render_animation_frame_single_slot (keys : List String)
    (render : Pose → Pose → Pose) (envelope : ℚ → ℚ) (animation_running : Bool)
    (current_emotion : String) (is_talking : Bool) (reload_pending : Bool)
    (loaded_image : Option Pose) (emotions : List (String × List (String × ℚ)))
    (time_now : ℤ) (d : TickDraws) (st : AnimatorState)
    (h : st.new_frame_available = true) :
    render_animation_frame keys render envelope animation_running current_emotion
      is_talking reload_pending loaded_image emotions time_now d st = st := by
  unfold render_animation_frame
  cases animation_running with
  | false => simp
  | true => simp [h]

/-- Concrete state for the C4 witness. -/
def busy_slot_state : AnimatorState :=
  { sway_cached_state with new_frame_available := true, result_image := some [5] }

/-- Witness for C4: with an unconsumed frame in the slot, a running
render tick leaves the state untouched. -/
theorem render_animation_frame_single_slot_witness :
    busy_slot_state.new_frame_available = true ∧
    render_animation_frame [] (fun _ p => p) (fun q => q) true "neutral" false
      false none [] 0
      ⟨fun _ => 0, 0, fun _ => 0, 0, 0, 0⟩ busy_slot_state = busy_slot_state :=
  ⟨rfl,
   render_animation_frame_single_slot [] (fun _ p => p) (fun q => q) true "neutral"
     false false none [] 0 ⟨fun _ => 0, 0, fun _ => 0, 0, 0, 0⟩ busy_slot_state rfl⟩

theorem interpolate_pose_length (keys : List String) (pose target_pose : Pose)
    (step : ℚ) : (interpolate_pose keys pose target_pose step).length = pose.length :=
  mapWithIdx_length _ 0 pose

theorem interpolate_pose_getD (keys : List String) (pose target_pose : Pose)
    (step : ℚ) (idx : ℕ) (hidx : idx < pose.length) (hk : idx < keys.length) :
    (interpolate_pose keys pose target_pose step).getD idx 0 =
      pose.getD idx 0 + step * (target_pose.getD idx 0 - pose.getD idx 0) := by
  unfold interpolate_pose
  rw [mapWithIdx_getD _ 0 idx pose hidx]
  simp [hk]

theorem interpolate_pose_dist (keys : List String) (pose target_pose : Pose)
    (step : ℚ) (hs1 : step ≤ 1) (idx : ℕ) (hidx : idx < pose.length)
    (hk : idx < keys.length) :
    |(interpolate_pose keys pose target_pose step).getD idx 0 - target_pose.getD idx 0| =
      (1 - step) * |pose.getD idx 0 - target_pose.getD idx 0| := by
  rw [interpolate_pose_getD keys pose target_pose step idx hidx hk]
  have h : pose.getD idx 0 + step * (target_pose.getD idx 0 - pose.getD idx 0) -
      target_pose.getD idx 0 = (1 - step) * (pose.getD idx 0 - target_pose.getD idx 0) := by
    ring
  rw [h, abs_mul, abs_of_nonneg (by linarith : (0 : ℚ) ≤ 1 - step)]

theorem iterate_interpolate_length (keys : List String) (target_pose : Pose)
    (step : ℚ) (pose : Pose) (n : ℕ) :
    ((fun p => interpolate_pose keys p target_pose step)^[n] pose).length =
      pose.length := by
  induction n with
  | zero => rfl
  | succ m ih =>
    rw [Function.iterate_succ_apply']
    rw [interpolate_pose_length, ih]

/-- C6: `interpolate_pose` advances each channel by
`next = current + step * (target - current)`; for a constant target and
a step in (0,1) the per-channel distance to the target shrinks by the
exact factor `1 - step`, and strictly decreases at every iteration of
the repeated application until the channel equals the target. -/
theorem interpolate_pose_contraction (keys : List String) (pose target_pose : Pose)
    (step : ℚ) (hs0 : 0 < step) (hs1 : step < 1) (idx : ℕ)
    (hidx : idx < pose.length) (hk : idx < keys.length) :
    ((interpolate_pose keys pose target_pose step).getD idx 0 =
      pose.getD idx 0 + step * (target_pose.getD idx 0 - pose.getD idx 0)) ∧
    (|(interpolate_pose keys pose target_pose step).getD idx 0 -
        target_pose.getD idx 0| =
      (1 - step) * |pose.getD idx 0 - target_pose.getD idx 0|) ∧
    (pose.getD idx 0 ≠ target_pose.getD idx 0 →
      |(interpolate_pose keys pose target_pose step).getD idx 0 -
          target_pose.getD idx 0| <
        |pose.getD idx 0 - target_pose.getD idx 0|) ∧
    (∀ n : ℕ,
      ((fun p => interpolate_pose keys p target_pose step)^[n] pose).getD idx 0 ≠
        target_pose.getD idx 0 →
      |((fun p => interpolate_pose keys p target_pose step)^[n + 1] pose).getD idx 0 -
          target_pose.getD idx 0| <
        |((fun p => interpolate_pose keys p target_pose step)^[n] pose).getD idx 0 -
            target_pose.getD idx 0|) := by
  have hstep1 : step ≤ 1 := le_of_lt hs1
  have hone : ∀ q : Pose, q.getD idx 0 ≠ target_pose.getD idx 0 →
      idx < q.length →
      |(interpolate_pose keys q target_pose step).getD idx 0 - target_pose.getD idx 0| <
        |q.getD idx 0 - target_pose.getD idx 0| := by
    intro q hne hq
    rw [interpolate_pose_dist keys q target_pose step hstep1 idx hq hk]
    have habs : 0 < |q.getD idx 0 - target_pose.getD idx 0| :=
      abs_pos.mpr (sub_ne_zero.mpr hne)
    exact mul_lt_of_lt_one_left habs (by linarith)
  refine ⟨interpolate_pose_getD keys pose target_pose step idx hidx hk,
    interpolate_pose_dist keys pose target_pose step hstep1 idx hidx hk,
    fun hne => hone pose hne hidx, ?_⟩
  intro n hne
  rw [Function.iterate_succ_apply']
  exact hone _ hne (by rw [iterate_interpolate_length]; exact hidx)

/-- Witness for C6: one integration step with `step = 1/10` from 0
toward 1 lands at 1/10 and strictly shrinks the distance. -/
theorem interpolate_pose_contraction_witness :
    (0 : ℚ) < 1 / 10 ∧ (1 / 10 : ℚ) < 1 ∧
    ((interpolate_pose posedict_keys [0, 0, 0, 0, 0, 0, 0, 0, 0]
        [1, 0, 0, 0, 0, 0, 0, 0, 0] (1 / 10)).getD 0 0 =
      (0 : ℚ) + 1 / 10 * (1 - 0)) ∧
    (((0 : ℚ) ≠ (1 : ℚ)) →
      |(interpolate_pose posedict_keys [0, 0, 0, 0, 0, 0, 0, 0, 0]
          [1, 0, 0, 0, 0, 0, 0, 0, 0] (1 / 10)).getD 0 0 - (1 : ℚ)| <
        |(0 : ℚ) - 1|) := by
  have h := interpolate_pose_contraction posedict_keys
    [0, 0, 0, 0, 0, 0, 0, 0, 0] [1, 0, 0, 0, 0, 0, 0, 0, 0] (1 / 10)
    (by norm_num) (by norm_num) 0 (by decide) (by decide)
  exact ⟨by norm_num, by norm_num, h.1, fun _ => h.2.2.1 (by norm_num)⟩

/-- C7: `apply_emotion_to_pose` gives every channel present in the
emotion preset its preset value, except the breathing channel, which —
like every channel absent from the preset — keeps its value from the
input pose; the result has the same length and the input list is never
mutated (the source copies it, and the embedding is pure). -/
theorem apply_emotion_to_pose_spec (keys : List String)
    (emotion_posedict : List (String × ℚ)) (pose : Pose) (idx : ℕ) (key : String)
    (hidx : idx < pose.length) (hkey : keys[idx]? = some key) :
    (apply_emotion_to_pose keys emotion_posedict pose).length = pose.length ∧
    (apply_emotion_to_pose keys emotion_posedict pose).getD idx 0 =
      if key = "breathing_index" then pose.getD idx 0
      else (List.lookup key emotion_posedict).getD (pose.getD idx 0) := by
  refine ⟨mapWithIdx_length _ 0 pose, ?_⟩
  unfold apply_emotion_to_pose
  rw [mapWithIdx_getD _ 0 idx pose hidx]
  simp only [Nat.zero_add, hkey]
  rcases hlook : List.lookup key emotion_posedict with _ | v
  · simp
  · by_cases hb : key = "breathing_index" <;> simp [hb]

/-- Witness for C7: the preset value 1/2 for `head_x_index` is copied
to channel 3, and a preset value for `breathing_index` would be
ignored (channel 8 keeps its pose value 0). -/
theorem apply_emotion_to_pose_spec_witness :
    posedict_keys[3]? = some "head_x_index" ∧
    (apply_emotion_to_pose posedict_keys
      [("head_x_index", (1 : ℚ) / 2), ("breathing_index", 1)]
      [0, 0, 0, 0, 0, 0, 0, 0, 0]).getD 3 0 = 1 / 2 := by
  have h := (apply_emotion_to_pose_spec posedict_keys
    [("head_x_index", (1 : ℚ) / 2), ("breathing_index", 1)]
    [0, 0, 0, 0, 0, 0, 0, 0, 0] 3 "head_x_index" (by decide) (by decide)).2
  refine ⟨by decide, ?_⟩
  rw [h, if_neg (by decide)]
  rfl

/-- C8: while the talking flag is set, `animate_talking` replaces the
mouth-open channel with `clamp(abs(1 - previous) + u, 0, 1)` — a value
always inside [0, 1] — and leaves every other channel unchanged; with
the flag clear (including the first tick after talking stops) it
returns the pose unchanged. -/
theorem animate_talking_spec (keys : List String) (pose : Pose) (u : ℚ)
    (hu1 : -2 ≤ u) (hu2 : u ≤ 2)
    (hidx : posedict_key_to_index keys "mouth_aaa_index" < pose.length) :
    (animate_talking keys true u pose =
      pose.set (posedict_key_to_index keys "mouth_aaa_index")
        (max 0 (min (|1 - pose.getD (posedict_key_to_index keys "mouth_aaa_index") 0| + u) 1))) ∧
    (0 ≤ (animate_talking keys true u pose).getD
      (posedict_key_to_index keys "mouth_aaa_index") 0) ∧
    ((animate_talking keys true u pose).getD
      (posedict_key_to_index keys "mouth_aaa_index") 0 ≤ 1) ∧
    (∀ j, j ≠ posedict_key_to_index keys "mouth_aaa_index" →
      (animate_talking keys true u pose).getD j 0 = pose.getD j 0) ∧
    animate_talking keys false u pose = pose := by
  have heq : animate_talking keys true u pose =
      pose.set (posedict_key_to_index keys "mouth_aaa_index")
        (max 0 (min (|1 - pose.getD (posedict_key_to_index keys "mouth_aaa_index") 0| + u) 1)) :=
    rfl
  refine ⟨heq, ?_, ?_, ?_, rfl⟩
  · rw [heq, getD_set_self _ _ _ hidx]
    exact le_max_left 0 _
  · rw [heq, getD_set_self _ _ _ hidx]
    exact max_le (by norm_num) (min_le_right _ _)
  · intro j hj
    rw [heq, getD_set_ne _ _ _ _ (fun hh => hj hh.symm)]

/-- Witness for C8: with the mouth channel at 0 and draw `u = 3/2`,
talking sets it to 1 (clamped), leaves channel 0 alone, and a
non-talking call is the identity. -/
theorem animate_talking_spec_witness :
    (-2 : ℚ) ≤ 3 / 2 ∧ (3 / 2 : ℚ) ≤ 2 ∧
    posedict_key_to_index posedict_keys "mouth_aaa_index" <
      ([0, 0, 0, 0, 0, 0, 0, 0, 0] : Pose).length ∧
    (0 ≤ (animate_talking posedict_keys true (3 / 2)
      [0, 0, 0, 0, 0, 0, 0, 0, 0]).getD
        (posedict_key_to_index posedict_keys "mouth_aaa_index") 0) ∧
    ((animate_talking posedict_keys true (3 / 2)
      [0, 0, 0, 0, 0, 0, 0, 0, 0]).getD
        (posedict_key_to_index posedict_keys "mouth_aaa_index") 0 ≤ 1) ∧
    animate_talking posedict_keys false (3 / 2) [0, 0, 0, 0, 0, 0, 0, 0, 0] =
      [0, 0, 0, 0, 0, 0, 0, 0, 0] := by
  have h := animate_talking_spec posedict_keys [0, 0, 0, 0, 0, 0, 0, 0, 0] (3 / 2)
    (by norm_num) (by norm_num) (by decide)
  exact ⟨by norm_num, by norm_num, by decide, h.2.1, h.2.2.1, h.2.2.2.2⟩

theorem breathing_cycle_pos_nonneg (epoch time_now : ℤ) (h : epoch ≤ time_now) :
    0 ≤ breathing_cycle_pos epoch time_now := by
  unfold breathing_cycle_pos breathing_cycle_duration
  have hnum : (0 : ℚ) ≤ ((time_now - epoch : ℤ) : ℚ) := by
    exact_mod_cast sub_nonneg.mpr h
  exact div_nonneg (div_nonneg hnum (by norm_num)) (by norm_num)

theorem breathing_phase_eq_fract (epoch time_now : ℤ) (h : epoch ≤ time_now) :
    breathing_phase epoch time_now = Int.fract (breathing_cycle_pos epoch time_now) := by
  unfold breathing_phase pyTrunc
  rw [if_pos (breathing_cycle_pos_nonneg epoch time_now h), Int.self_sub_floor]

theorem breathing_cycle_pos_shift (epoch time_now t2 : ℤ) :
    breathing_cycle_pos time_now t2 =
      breathing_cycle_pos epoch t2 - breathing_cycle_pos epoch time_now := by
  unfold breathing_cycle_pos breathing_cycle_duration
  push_cast
  ring

/-- C5: `animate_breathing` sets the breathing channel to the envelope
of the phase — in the source `sin(phase * pi) ** 2` — where the phase
is the fractional part of (elapsed nanoseconds since the breathing
epoch) / (4-second cycle); the phase lies in [0, 1) and the sin-squared
envelope in [0, 1]; the epoch is reset to now exactly when the cycle
position exceeds 1; and the reset is continuous: the value emitted at
the reset tick is still computed from the old epoch, and afterwards the
new phase differs from the never-reset phase by exactly the overshoot
`cycle_pos - 1` of the reset tick past the cycle boundary (mod 1), so
the discontinuity is bounded by the tick spacing over the cycle
duration. -/
theorem animate_breathing_spec (keys : List String) (envelope : ℚ → ℚ) (pose : Pose)
    (epoch time_now t2 : ℤ) (hlt : epoch < time_now) (ht2 : time_now ≤ t2)
    (hidx : posedict_key_to_index keys "breathing_index" < pose.length) :
    ((animate_breathing keys envelope epoch time_now pose).1.getD
        (posedict_key_to_index keys "breathing_index") 0 =
      envelope (breathing_phase epoch time_now)) ∧
    (0 ≤ breathing_phase epoch time_now ∧ breathing_phase epoch time_now < 1) ∧
    (0 ≤ Real.sin ((breathing_phase epoch time_now : ℝ) * Real.pi) ^ 2 ∧
      Real.sin ((breathing_phase epoch time_now : ℝ) * Real.pi) ^ 2 ≤ 1) ∧
    ((animate_breathing keys envelope epoch time_now pose).2 = time_now ↔
      1 < breathing_cycle_pos epoch time_now) ∧
    (1 < breathing_cycle_pos epoch time_now →
      Int.fract (breathing_phase time_now t2 +
          (breathing_cycle_pos epoch time_now - 1)) = breathing_phase epoch t2) := by
  have hle : epoch ≤ time_now := le_of_lt hlt
  have hphase := breathing_phase_eq_fract epoch time_now hle
  refine ⟨getD_set_self pose _ _ hidx, ?_, ?_, ?_, ?_⟩
  · rw [hphase]
    exact ⟨Int.fract_nonneg _, Int.fract_lt_one _⟩
  · exact ⟨sq_nonneg _, Real.sin_sq_le_one _⟩
  · show animate_breathing_epoch epoch time_now = time_now ↔ _
    by_cases hc : 1 < breathing_cycle_pos epoch time_now
    · simp [animate_breathing_epoch, hc]
    · simp only [animate_breathing_epoch, if_neg hc]
      exact iff_of_false (ne_of_lt hlt) hc
  · intro _
    have hle2 : epoch ≤ t2 := le_trans hle ht2
    rw [breathing_phase_eq_fract time_now t2 ht2,
        breathing_phase_eq_fract epoch t2 hle2,
        breathing_cycle_pos_shift epoch time_now t2]
    set a := breathing_cycle_pos epoch t2
    set b := breathing_cycle_pos epoch time_now
    have hf : Int.fract (a - b) = (a - b) - (⌊a - b⌋ : ℚ) :=
      (Int.self_sub_floor _).symm
    have h1 : Int.fract (a - b) + (b - 1) = a - ((1 + ⌊a - b⌋ : ℤ) : ℚ) := by
      rw [hf]
      push_cast
      ring
    rw [h1, Int.fract_sub_int]

/-- Witness for C5: epoch 0, tick at 5 seconds (cycle position 1.25,
which triggers the epoch reset), next tick at 6 seconds. -/
theorem animate_breathing_spec_witness :
    (0 : ℤ) < 5 * 10 ^ 9 ∧ (5 * 10 ^ 9 : ℤ) ≤ 6 * 10 ^ 9 ∧
    posedict_key_to_index posedict_keys "breathing_index" <
      ([0, 0, 0, 0, 0, 0, 0, 0, 0] : Pose).length ∧
    (0 ≤ breathing_phase 0 (5 * 10 ^ 9) ∧ breathing_phase 0 (5 * 10 ^ 9) < 1) ∧
    ((animate_breathing posedict_keys (fun q => q) 0 (5 * 10 ^ 9)
        [0, 0, 0, 0, 0, 0, 0, 0, 0]).2 = 5 * 10 ^ 9 ↔
      1 < breathing_cycle_pos 0 (5 * 10 ^ 9)) := by
  have h := animate_breathing_spec posedict_keys (fun q => q)
    [0, 0, 0, 0, 0, 0, 0, 0, 0] 0 (5 * 10 ^ 9) (6 * 10 ^ 9)
    (by decide) (by decide) (by decide)
  exact ⟨by decide, by decide, by decide, h.2.1, h.2.2.2.1⟩

/-- The animator state right after `Animator.__init__` /
`reset_animation_state` with breathing epoch `t`: no pose, no previous
emotion, no cached blink or sway data, empty output slot. -/
def initial_animator_state (t : ℤ) : AnimatorState :=
  { current_pose := none, last_emotion := none,
    last_emotion_change_timestamp := 0, last_blink_timestamp := 0,
    blink_interval := none, last_sway_target_timestamp := 0,
    last_sway_target_pose := none, sway_interval := none,
    breathing_epoch := t, source_image := none, result_image := none,
    new_frame_available := false }

/-- C1 (failing input for the sway containment claim): with base target
value 1 on `head_x_index` — outside `[-0.6, 0.6]`, as an emotion preset
may legally specify — the draw range is `[lower, upper] = [-1.6, 0]`;
the admissible draw `u = -3/10` yields the swayed value `7/10`, which
is outside `[-random_max, random_max]`, contradicting both the claim
and the comment in the source.  Checked end-to-end through
the recompute branch of `sway_step`. -/
theorem sway_out_of_range_example :
    sway_random_lower 1 ≤ -(3 / 10 : ℚ) ∧
    -(3 / 10 : ℚ) ≤ sway_random_upper 1 ∧
    (sway_step posedict_keys "neutral" 0
        (fun key => if key = "head_x_index" then -(3 / 10) else 0) 7
        [0, 0, 0, 1, 0, 0, 0, 0, 0] (initial_animator_state 0)).1.getD 3 0 = 7 / 10 ∧
    ¬ ((sway_step posedict_keys "neutral" 0
        (fun key => if key = "head_x_index" then -(3 / 10) else 0) 7
        [0, 0, 0, 1, 0, 0, 0, 0, 0] (initial_animator_state 0)).1.getD 3 0 ≤
      sway_random_max) := by
  have hval : (sway_step posedict_keys "neutral" 0
      (fun key => if key = "head_x_index" then -(3 / 10) else 0) 7
      [0, 0, 0, 1, 0, 0, 0, 0, 0] (initial_animator_state 0)).1.getD 3 0 = 7 / 10 := by
    have i3 : posedict_key_to_index posedict_keys "head_x_index" = 3 := rfl
    have i4 : posedict_key_to_index posedict_keys "head_y_index" = 4 := rfl
    have i5 : posedict_key_to_index posedict_keys "neck_z_index" = 5 := rfl
    have i6 : posedict_key_to_index posedict_keys "body_y_index" = 6 := rfl
    have i7 : posedict_key_to_index posedict_keys "body_z_index" = 7 := rfl
    have f1 : (if ("head_x_index" : String) = "head_x_index"
        then -(3 / 10 : ℚ) else 0) = -(3 / 10) := if_pos rfl
    have f2 : (if ("head_y_index" : String) = "head_x_index"
        then -(3 / 10 : ℚ) else 0) = 0 := if_neg (by decide)
    have f3 : (if ("neck_z_index" : String) = "head_x_index"
        then -(3 / 10 : ℚ) else 0) = 0 := if_neg (by decide)
    have f4 : (if ("body_y_index" : String) = "head_x_index"
        then -(3 / 10 : ℚ) else 0) = 0 := if_neg (by decide)
    have f5 : (if ("body_z_index" : String) = "head_x_index"
        then -(3 / 10 : ℚ) else 0) = 0 := if_neg (by decide)
    norm_num [sway_step, SWAYPARTS, initial_animator_state,
      i3, i4, i5, i6, i7, f1, f2, f3, f4, f5,
      List.set_cons_zero, List.set_cons_succ, List.getD_cons_zero,
      List.getD_cons_succ]
  refine ⟨?_, ?_, hval, ?_⟩
  · norm_num [sway_random_lower, sway_random_max]
  · norm_num [sway_random_upper, sway_random_max]
  · rw [hval]
    norm_num [sway_random_max]

/-- Concrete cached-branch state for the C2 failing input: a sway
target was drawn at time 0 with a 7-second hold interval, the active
emotion is unchanged, and the cached macro target has value 1/2 on
`head_x_index`. -/
def sway_drift_state : AnimatorState :=
  { initial_animator_state 0 with
    last_emotion := some "neutral",
    last_sway_target_pose := some [0, 0, 0, 1 / 2, 0, 0, 0, 0, 0],
    sway_interval := some 7 }

/-- C2 (failing input for the cached-macro-target claim): one second
into a 7-second hold interval with unchanged active emotion — so the
macro target is not due for recomputation — a single call to
`compute_sway_target_pose` nevertheless changes the cached macro sway
target: the per-tick micro jitter (here the admissible draw `+1/50` on
`head_x_index`, at the `noise_max` bound) is applied in place to the
returned list, which is the very object stored in the cache, moving
the cached value from `1/2` to `13/25`.  Repeated calls therefore
return a cached target that drifts as a clamped random walk rather
than the same macro target, contradicting the claim, the spec (the
jitter is "not cached", the cached target "reused"), and the comments
in the source (the noise is "re-generated every frame" and added on
top of the sway target, and the driver "takes care of caching
internally"). -/
theorem sway_cache_mutation_example :
    sway_drift_state.last_emotion = some "neutral" ∧
    sway_drift_state.sway_interval = some 7 ∧
    ((10 ^ 9 - sway_drift_state.last_sway_target_timestamp : ℤ) : ℚ) / 10 ^ 9 < 7 ∧
    (compute_sway_target_pose posedict_keys "neutral" (10 ^ 9) (fun _ => 0) 6
        (fun key => if key = "head_x_index" then 1 / 50 else 0)
        [0, 0, 0, 0, 0, 0, 0, 0, 0] sway_drift_state).2.last_sway_target_pose =
      some [0, 0, 0, 13 / 25, 0, 0, 0, 0, 0] ∧
    (some [0, 0, 0, 13 / 25, 0, 0, 0, 0, 0] : Option Pose) ≠
      sway_drift_state.last_sway_target_pose := by
  have hstep := sway_step_cached posedict_keys "neutral" (10 ^ 9) (fun _ => 0) 6
    [0, 0, 0, 0, 0, 0, 0, 0, 0] sway_drift_state 7 [0, 0, 0, 1 / 2, 0, 0, 0, 0, 0]
    rfl rfl (by norm_num [sway_drift_state, initial_animator_state]) rfl
  have i3 : posedict_key_to_index posedict_keys "head_x_index" = 3 := rfl
  have i4 : posedict_key_to_index posedict_keys "head_y_index" = 4 := rfl
  have i5 : posedict_key_to_index posedict_keys "neck_z_index" = 5 := rfl
  have i6 : posedict_key_to_index posedict_keys "body_y_index" = 6 := rfl
  have i7 : posedict_key_to_index posedict_keys "body_z_index" = 7 := rfl
  have g1 : (if ("head_x_index" : String) = "head_x_index"
      then (1 : ℚ) / 50 else 0) = 1 / 50 := if_pos rfl
  have g2 : (if ("head_y_index" : String) = "head_x_index"
      then (1 : ℚ) / 50 else 0) = 0 := if_neg (by decide)
  have g3 : (if ("neck_z_index" : String) = "head_x_index"
      then (1 : ℚ) / 50 else 0) = 0 := if_neg (by decide)
  have g4 : (if ("body_y_index" : String) = "head_x_index"
      then (1 : ℚ) / 50 else 0) = 0 := if_neg (by decide)
  have g5 : (if ("body_z_index" : String) = "head_x_index"
      then (1 : ℚ) / 50 else 0) = 0 := if_neg (by decide)
  have hjit : add_microsway posedict_keys
      (fun key => if key = "head_x_index" then (1 : ℚ) / 50 else 0)
      [0, 0, 0, 1 / 2, 0, 0, 0, 0, 0] = [0, 0, 0, 13 / 25, 0, 0, 0, 0, 0] := by
    norm_num [add_microsway, SWAYPARTS, i3, i4, i5, i6, i7, g1, g2, g3, g4, g5,
      min_def, max_def, List.set_cons_zero, List.set_cons_succ,
      List.getD_cons_zero, List.getD_cons_succ]
  have hal : sway_drift_state.last_sway_target_pose =
      some ([0, 0, 0, 1 / 2, 0, 0, 0, 0, 0] : Pose) := rfl
  refine ⟨rfl, rfl, by norm_num [sway_drift_state, initial_animator_state], ?_, ?_⟩
  · simp only [compute_sway_target_pose, hstep, hal, eq_self_iff_true, if_true, hjit]
  · rw [hal]
    intro hcontra
    have hlist := Option.some_injective _ hcontra
    have h3 : (13 : ℚ) / 25 = 1 / 2 := by
      have := congrArg (fun l : Pose => l.getD 3 0) hlist
      simpa using this
    norm_num at h3

end Talkinghead
